import Mathlib

set_option maxRecDepth 8192

/-!
Verification of the umich-salary ingestion pipeline.

This file gives a shallow embedding, in Lean 4, of the ingestion /
normalization core of the repository: the deduplicating batch loader,
the title/department field normalizer, the HTML pagination logic, the
failure-ledger bookkeeping of the run controller, the PDF compact-chunk
and line-block parsers, and the pre-insert field truncation.  Each
definition mirrors a specific function of the source
(`src/backend/src/scripts/import-from-pdf.js`,
`src/backend/src/scripts/fix-title-department.js`, and the umsalary
importer script); the source file and function are named in the doc
comment of every definition.  Machine floats in the source only ever
hold exact decimal currency values, so they are modelled as rationals.
JavaScript regular expressions are modelled by hand-written scanners
over the character list of the string, matching the concrete pattern of
the source line by line.
-/

/-! ### Basic character and string helpers -/

/-- Whitespace characters recognised by the scrapers' regexes (`\s`) and by
`String.prototype.trim`. -/
def isSpaceChar (c : Char) : Bool :=
  c = ' ' || c = '\t' || c = '\n' || c = '\r'

/-- JavaScript `String.prototype.trim` on a character list. -/
def trimChars (cs : List Char) : List Char :=
  ((cs.dropWhile isSpaceChar).reverse.dropWhile isSpaceChar).reverse

/-- JavaScript `String.prototype.trim`. -/
def strTrim (s : String) : String := ⟨trimChars s.data⟩

/-- Case-insensitive character comparison, as done by the `/i` regex flag
(the source strings are ASCII). -/
def ciEq (a b : Char) : Bool := a.toLower = b.toLower

/-- `pat.isPrefixOf cs` case-insensitively; returns the remainder on success. -/
def eatCI : List Char → List Char → Option (List Char)
  | [], cs => some cs
  | _ :: _, [] => none
  | p :: ps, c :: cs => if ciEq p c then eatCI ps cs else none

/-- Case-sensitive literal match; returns the remainder on success. -/
def eatLit : List Char → List Char → Option (List Char)
  | [], cs => some cs
  | _ :: _, [] => none
  | p :: ps, c :: cs => if p = c then eatLit ps cs else none

/-- Consume one or more whitespace characters (`\s+`). -/
def eatWs1 (cs : List Char) : Option (List Char) :=
  match cs with
  | c :: rest => if isSpaceChar c then some (rest.dropWhile isSpaceChar) else none
  | [] => none

/-- JavaScript word characters (`\w`), used for `\b` boundaries. -/
def isWordChar (c : Char) : Bool :=
  c.isAlpha || c.isDigit || c = '_'

/-- Digit-string to natural number, as `parseInt(s, 10)` on an all-digit
string. -/
def digitsToNat (cs : List Char) : Nat :=
  cs.foldl (fun acc c => acc * 10 + (c.toNat - '0'.toNat)) 0

/-- Value of a digit list read as the fractional part after a decimal
point. -/
def fracVal (cs : List Char) : ℚ :=
  (digitsToNat cs : ℚ) / ((10 : ℚ) ^ cs.length)

/-- JavaScript `parseFloat` restricted to the digit strings the importer
feeds it (an optional run of digits, an optional point, an optional run
of fraction digits); any other input yields `none` (JS `NaN`). -/
def parseFloatQ (cs : List Char) : Option ℚ :=
  let cs := cs.dropWhile isSpaceChar
  let intPart := cs.takeWhile Char.isDigit
  let rest := cs.dropWhile Char.isDigit
  match rest with
  | '.' :: rest2 =>
      let fracPart := rest2.takeWhile Char.isDigit
      if intPart.isEmpty && fracPart.isEmpty then none
      else some ((digitsToNat intPart : ℚ) + fracVal fracPart)
  | _ => if intPart.isEmpty then none else some (digitsToNat intPart : ℚ)

/-- `parseCurrency` of `import-from-pdf.js` (lines 60-64): strip commas,
`parseFloat`, default `0` when the result is not finite. -/
def parseCurrency (s : String) : ℚ :=
  match parseFloatQ (s.data.filter (fun c => c ≠ ',')) with
  | some q => q
  | none => 0

/-- `parseSalary` of the umsalary importer (lines 107-111): strip `$` and
commas, `parseFloat`, default `0`. -/
def parseSalary (s : String) : ℚ :=
  match parseFloatQ (s.data.filter (fun c => c ≠ ',' && c ≠ '$')) with
  | some q => q
  | none => 0

/-! ### Canonical records and the batch loader -/

/-- A row of `salary_records` as both importer scripts submit it
(column list of the `INSERT` statements). -/
structure SalaryRecord where
  last_name : String
  first_name : String
  title : String
  department : String
  fiscal_year : String
  year_key : Int
  campus : String
  campus_id : Nat
  ftr : ℚ
  gf : ℚ
  period_fte : String
deriving DecidableEq

/-- The identity tuple of the unique index `idx_salary_import_key`
(`ON CONFLICT (last_name, first_name, title, department, year_key)`). -/
abbrev RecordKey := String × String × String × String × Int

/-- Key of a record under the uniqueness policy of §3 of the spec. -/
def keyOf (r : SalaryRecord) : RecordKey :=
  (r.last_name, r.first_name, r.title, r.department, r.year_key)

/-- State of the canonical store during a load: key set plus the
`inserted` / `skippedAsDuplicate` counters both importers report. -/
structure LoadState where
  store : List RecordKey
  inserted : Nat
  skipped : Nat
deriving DecidableEq

/-- One row of an `INSERT ... ON CONFLICT (...) DO NOTHING` statement:
a row whose key is present (in the table or earlier in the statement) is
skipped, otherwise it is inserted and counted in `rowCount`. -/
def insertOne (st : LoadState) (r : SalaryRecord) : LoadState :=
  if keyOf r ∈ st.store then { st with skipped := st.skipped + 1 }
  else { store := st.store ++ [keyOf r], inserted := st.inserted + 1, skipped := st.skipped }

/-- The batch-insert loop shared by the umsalary importer (part_006 lines
349-368) and the PDF importer (`import-from-pdf.js` lines 338-357): rows
are grouped 100 per statement, each statement inserts-or-skips row by
row, and the per-statement `rowCount`s are summed.  Because
`ON CONFLICT DO NOTHING` applies row by row (also to conflicts within
one statement), the batching does not change the store or the counters,
so the load is the plain per-row fold. -/
def loadRecords (rs : List SalaryRecord) (store : List RecordKey) : LoadState :=
  rs.foldl insertOne { store := store, inserted := 0, skipped := 0 }

theorem insertOne_store_mono {k : RecordKey} {st : LoadState} (r : SalaryRecord)
    (h : k ∈ st.store) : k ∈ (insertOne st r).store := by
  unfold insertOne
  split
  · exact h
  · exact List.mem_append_left _ h

theorem foldl_insertOne_store_mono {k : RecordKey} (rs : List SalaryRecord) :
    ∀ st : LoadState, k ∈ st.store → k ∈ (rs.foldl insertOne st).store := by
  induction rs with
  | nil => intro st h; exact h
  | cons r rs ih =>
      intro st h
      exact ih (insertOne st r) (insertOne_store_mono r h)

theorem key_mem_insertOne (st : LoadState) (r : SalaryRecord) :
    keyOf r ∈ (insertOne st r).store := by
  unfold insertOne
  split
  · assumption
  · exact List.mem_append_right _ (List.mem_singleton.mpr rfl)

theorem key_mem_after_load (rs : List SalaryRecord) :
    ∀ st : LoadState, ∀ r ∈ rs, keyOf r ∈ (rs.foldl insertOne st).store := by
  induction rs with
  | nil => intro st r h; exact absurd h (List.not_mem_nil r)
  | cons a rs ih =>
      intro st r h
      rcases List.mem_cons.mp h with h | h
      · subst h
        exact foldl_insertOne_store_mono rs (insertOne st r) (key_mem_insertOne st r)
      · exact ih (insertOne st a) r h

theorem foldl_insertOne_all_dup (rs : List SalaryRecord) :
    ∀ st : LoadState, (∀ r ∈ rs, keyOf r ∈ st.store) →
      rs.foldl insertOne st = ⟨st.store, st.inserted, st.skipped + rs.length⟩ := by
  induction rs with
  | nil => intro st _; simp
  | cons a rs ih =>
      intro st h
      have ha : keyOf a ∈ st.store := h a (List.mem_cons_self a rs)
      have hstep : insertOne st a = { st with skipped := st.skipped + 1 } := by
        unfold insertOne; simp [ha]
      rw [List.foldl_cons, hstep]
      rw [ih { st with skipped := st.skipped + 1 }
        (fun r hr => h r (List.mem_cons_of_mem a hr))]
      simp [List.length_cons]
      omega

/-- Maximum column widths of `salary_records`, as hard-coded in
`MAX_LEN` of `import-from-pdf.js` (line 43). -/
def truncStr (maxLen : Nat) (s : String) : String :=
  if maxLen < s.length then ⟨s.data.take maxLen⟩ else s

/-- `truncateRecord` of `import-from-pdf.js` (lines 44-50): clip each
bounded string column to its `MAX_LEN` before building insert
parameters. -/
def truncateRecord (r : SalaryRecord) : SalaryRecord :=
  { r with
    last_name := truncStr 255 r.last_name
    first_name := truncStr 255 r.first_name
    title := truncStr 500 r.title
    department := truncStr 500 r.department
    period_fte := truncStr 50 r.period_fte
    campus := truncStr 100 r.campus }

/-- The rows the PDF importer actually submits for one batch
(`import-from-pdf.js` lines 343-347): every record passes through
`truncateRecord` before its fields are pushed onto the insert
parameters. -/
def pdfInsertBatch (batch : List SalaryRecord) : List SalaryRecord :=
  batch.map truncateRecord

/-- The PDF importer's load step (`import-from-pdf.js` lines 338-357):
identical to `loadRecords`, except each record is truncated first. -/
def loadRecordsPdf (rs : List SalaryRecord) (store : List RecordKey) : LoadState :=
  loadRecords (pdfInsertBatch rs) store

theorem loadRecords_reload (rs : List SalaryRecord) (store : List RecordKey) :
    loadRecords rs (loadRecords rs store).store
      = ⟨(loadRecords rs store).store, 0, rs.length⟩ := by
  have h := foldl_insertOne_all_dup rs ⟨(loadRecords rs store).store, 0, 0⟩
    (fun r hr => key_mem_after_load rs ⟨store, 0, 0⟩ r hr)
  simpa [loadRecords] using h

/--
C1: re-loading an already-loaded record set is a no-op.  After any set
of candidate records `rs` has been loaded on top of any store, loading
`rs` again inserts zero rows, leaves the store unchanged, and reports
every record as skipped-as-duplicate; no record is ever duplicated and
the load never fails (`loadRecords` and `loadRecordsPdf` are total
functions).  The first conjunct is the HTML importer's load loop, the
second the PDF importer's (which truncates each record, uniformly on
both passes).
-/
theorem loader_reload_is_noop (rs : List SalaryRecord) (store : List RecordKey) :
    loadRecords rs (loadRecords rs store).store
        = ⟨(loadRecords rs store).store, 0, rs.length⟩
    ∧ loadRecordsPdf rs (loadRecordsPdf rs store).store
        = ⟨(loadRecordsPdf rs store).store, 0, rs.length⟩ := by
  refine ⟨loadRecords_reload rs store, ?_⟩
  have h := loadRecords_reload (pdfInsertBatch rs) store
  simpa [loadRecordsPdf, pdfInsertBatch] using h

/-! ### Field Normalizer: title-leak repair (`fix-title-department.js`) -/

/-- A `\b` boundary to the left of a word-character: holds at the start of
the string or after a non-word character. -/
def wordBoundaryOk (prev : Option Char) : Bool :=
  match prev with
  | none => true
  | some p => !isWordChar p

/-- A `\b` boundary to the right of a word-character: holds at the end of
the string or before a non-word character. -/
def followBoundaryOk : List Char → Bool
  | [] => true
  | c :: _ => !isWordChar c

/-- Scan every position of the string, tracking the previous character,
and test `hereMatch` at positions with a `\b` boundary on the left. -/
def scanPos (hereMatch : List Char → Bool) : Option Char → List Char → Bool
  | _, [] => false
  | prev, c :: cs => (wordBoundaryOk prev && hereMatch (c :: cs)) || scanPos hereMatch (some c) cs

/-- Scan every position of the string and test `hereMatch` (no boundary
requirement), i.e. an unanchored regex match. -/
def scanAny (hereMatch : List Char → Bool) : List Char → Bool
  | [] => false
  | c :: cs => hereMatch (c :: cs) || scanAny hereMatch cs

/-- `/\bw\b/i` for a literal `w` whose first and last characters are word
characters. -/
def containsWordCI (w : String) (s : String) : Bool :=
  scanPos (fun cs =>
    match eatCI w.data cs with
    | some r => followBoundaryOk r
    | none => false) none s.data

/-- `ORG_INDICATORS` of `fix-title-department.js` (line 37):
`/\b(department|office|center|centre|program|admin|services|division|institute|lab|laboratory)\b/i`. -/
def ORG_INDICATORS : List String :=
  ["department", "office", "center", "centre", "program", "admin",
   "services", "division", "institute", "lab", "laboratory"]

/-- Whether the organizational-unit whitelist regex matches the string. -/
def matchesOrgIndicator (s : String) : Bool :=
  ORG_INDICATORS.any (fun w => containsWordCI w s)

/-- `/\b(assoc|asst)\s+(prof|res)/i` at one position (boundary already
checked by `scanPos`); every alternative is tried with its full
continuation, as regex backtracking does. -/
def assocProfHere (cs : List Char) : Bool :=
  ["assoc", "asst"].any fun w =>
    match eatCI w.data cs with
    | some r1 =>
        (match eatWs1 r1 with
         | some r2 => ["prof", "res"].any fun v => (eatCI v.data r2).isSome
         | none => false)
    | none => false

/-- `(ofcr|officer)\b` at one position. -/
def officerHere (cs : List Char) : Bool :=
  ["ofcr", "officer"].any fun w =>
    match eatCI w.data cs with
    | some r => followBoundaryOk r
    | none => false

/-- `.*\s+(ofcr|officer)\b` : search for a `\s+(ofcr|officer)\b` suffix
start reachable from here over non-newline characters (`.` does not
match a newline). -/
def scanOfcr : List Char → Bool
  | [] => false
  | c :: cs =>
      (match eatWs1 (c :: cs) with
       | some r => officerHere r
       | none => false) || (c ≠ '\n' && scanOfcr cs)

/-- `/\b(acad|academic)\s+.*\s+(ofcr|officer)\b/i` at one position. -/
def acadOfficerHere (cs : List Char) : Bool :=
  ["acad", "academic"].any fun w =>
    match eatCI w.data cs with
    | some r1 =>
        (match eatWs1 r1 with
         | some r2 => scanOfcr r2
         | none => false)
    | none => false

/-- `/^(asst|assoc|assistant|associate)\s+/i` (anchored at the start). -/
def rankStartHere (cs : List Char) : Bool :=
  ["asst", "assoc", "assistant", "associate"].any fun w =>
    match eatCI w.data cs with
    | some r => (eatWs1 r).isSome
    | none => false

/-- `/\b(vp|vice\s+president)\b/i` at one position. -/
def vpHere (cs : List Char) : Bool :=
  (match eatCI "vp".data cs with
   | some r => followBoundaryOk r
   | none => false) ||
  (match eatCI "vice".data cs with
   | some r1 =>
      (match eatWs1 r1 with
       | some r2 =>
          (match eatCI "president".data r2 with
           | some r3 => followBoundaryOk r3
           | none => false)
       | none => false)
   | none => false)

/-- `/\b(chief|dir|director)\s+of\b/i` at one position. -/
def chiefOfHere (cs : List Char) : Bool :=
  ["chief", "dir", "director"].any fun w =>
    match eatCI w.data cs with
    | some r1 =>
        (match eatWs1 r1 with
         | some r2 =>
            (match eatCI "of".data r2 with
             | some r3 => followBoundaryOk r3
             | none => false)
         | none => false)
    | none => false

/-- `/^(sr|sr\.|senior)\s+(res|research)\b/i` (anchored at the start). -/
def srResearchHere (cs : List Char) : Bool :=
  ["sr", "sr.", "senior"].any fun w =>
    match eatCI w.data cs with
    | some r1 =>
        (match eatWs1 r1 with
         | some r2 => ["res", "research"].any fun v =>
             match eatCI v.data r2 with
             | some r3 => followBoundaryOk r3
             | none => false
         | none => false)
    | none => false

/-- `TITLE_LIKE_PATTERNS.some((re) => re.test(str))` of
`fix-title-department.js` (lines 22-34), pattern by pattern.  The
pattern `/\b(research\s+)?scientist\b/i` is embedded as
`/\bscientist\b/i`: the two match exactly the same strings, because the
optional group always ends in whitespace, which already provides the
word boundary in front of `scientist`. -/
def titlePatternMatch (s : String) : Bool :=
  scanAny (fun cs => (eatCI "professor".data cs).isSome) s.data ||
  containsWordCI "scientist" s ||
  containsWordCI "coach" s || containsWordCI "lecturer" s || containsWordCI "instructor" s ||
  containsWordCI "adjunct" s ||
  containsWordCI "fellow" s || containsWordCI "postdoc" s || containsWordCI "post-doc" s ||
  scanPos assocProfHere none s.data ||
  scanPos acadOfficerHere none s.data ||
  rankStartHere s.data ||
  scanPos vpHere none s.data ||
  scanPos chiefOfHere none s.data ||
  srResearchHere s.data

/-- `looksLikeTitle` of `fix-title-department.js` (lines 39-43): strings
of length < 3 never match; a whitelist (`ORG_INDICATORS`) match
suppresses every job-title pattern. -/
def looksLikeTitle (s : String) : Bool :=
  if s.length < 3 then false
  else if matchesOrgIndicator s then false
  else titlePatternMatch s

/-- A stored `(title, department)` pair as the repair pass reads it. -/
structure DbRow where
  title : String
  department : String
deriving DecidableEq

/-- The repair applied by `fix-title-department.js` `main` (lines 51-87)
to one row: rows with a non-empty department that `looksLikeTitle`
flags get `title := department, department := ''`; all other rows are
untouched. -/
def fixTitleDepartmentRow (r : DbRow) : DbRow :=
  if r.department != "" && looksLikeTitle r.department then
    { title := r.department, department := "" }
  else r

/--
C2: whitelist precedence in the title-leak repair.  For every
department string matched by the organizational-unit whitelist
(`ORG_INDICATORS`: department, office, center, centre, program, admin,
services, division, institute, lab, laboratory), `looksLikeTitle` is
false — even when a job-title pattern also matches — so the repair pass
leaves the record's title and department unchanged.
-/
theorem normalizer_whitelist_precedence (t d : String)
    (h : matchesOrgIndicator d = true) :
    looksLikeTitle d = false ∧ fixTitleDepartmentRow ⟨t, d⟩ = ⟨t, d⟩ := by
  have h1 : looksLikeTitle d = false := by
    unfold looksLikeTitle
    split
    · rfl
    · simp [h]
  refine ⟨h1, ?_⟩
  unfold fixTitleDepartmentRow
  simp [h1]

/-- Witness for C2 at a concrete input: "Asst Dir History Department"
matches a job-title pattern, yet the whitelist keyword `department`
suppresses it and the repair leaves the row unchanged. -/
theorem normalizer_whitelist_precedence_witness :
    matchesOrgIndicator "Asst Dir History Department" = true ∧
    titlePatternMatch "Asst Dir History Department" = true ∧
    looksLikeTitle "Asst Dir History Department" = false ∧
    fixTitleDepartmentRow ⟨"", "Asst Dir History Department"⟩
      = ⟨"", "Asst Dir History Department"⟩ := by
  have h : matchesOrgIndicator "Asst Dir History Department" = true := by decide
  have hp := normalizer_whitelist_precedence "" "Asst Dir History Department" h
  exact ⟨h, by decide, hp.1, hp.2⟩

/-! ### HTML Table Scraper: pagination (`parseTotalPages`, part_006) -/

/-- `/Page:\s*1\s+of\s+(\d+)/i` at one position: returns the captured
page count. -/
def markerColonHere (cs : List Char) : Option Nat :=
  match eatCI "page".data cs with
  | none => none
  | some r1 =>
      match eatLit [':'] r1 with
      | none => none
      | some r2 =>
          match eatLit ['1'] (r2.dropWhile isSpaceChar) with
          | none => none
          | some r4 =>
              match eatWs1 r4 with
              | none => none
              | some r5 =>
                  match eatCI "of".data r5 with
                  | none => none
                  | some r6 =>
                      match eatWs1 r6 with
                      | none => none
                      | some r7 =>
                          let ds := r7.takeWhile Char.isDigit
                          if ds.isEmpty then none else some (digitsToNat ds)

/-- `/Page\s+1\s+of\s+(\d+)/i` at one position. -/
def markerPlainHere (cs : List Char) : Option Nat :=
  match eatCI "page".data cs with
  | none => none
  | some r1 =>
      match eatWs1 r1 with
      | none => none
      | some r2 =>
          match eatLit ['1'] r2 with
          | none => none
          | some r4 =>
              match eatWs1 r4 with
              | none => none
              | some r5 =>
                  match eatCI "of".data r5 with
                  | none => none
                  | some r6 =>
                      match eatWs1 r6 with
                      | none => none
                      | some r7 =>
                          let ds := r7.takeWhile Char.isDigit
                          if ds.isEmpty then none else some (digitsToNat ds)

/-- Leftmost match of a positional matcher over the string. -/
def scanMarker (hereMatch : List Char → Option Nat) : List Char → Option Nat
  | [] => none
  | c :: cs =>
      match hereMatch (c :: cs) with
      | some n => some n
      | none => scanMarker hereMatch cs

/-- `html.match(re1) || html.match(re2)` of `parseTotalPages`
(part_006 line 211): the colon form is tried over the whole document
first, then the plain form. -/
def findPageMarker (html : String) : Option Nat :=
  match scanMarker markerColonHere html.data with
  | some n => some n
  | none => scanMarker markerPlainHere html.data

/-- `parseTotalPages` of part_006 (lines 210-213): page count from the
"Page 1 of N" marker, clamped to at least 1, defaulting to 1 when the
marker is absent. -/
def parseTotalPages (html : String) : Nat :=
  match findPageMarker html with
  | some n => max 1 n
  | none => 1

/-- Observable network-politeness events of the per-department loop. -/
inductive FetchEvent where
  | sleep (ms : Nat)
  | fetch (page : Nat)
deriving DecidableEq

/-- Whether an event is a page fetch. -/
def FetchEvent.isFetch : FetchEvent → Bool
  | .fetch _ => true
  | .sleep _ => false

/-- The event trace of one department in `main` of part_006 (lines
337-347): sleep the politeness delay, fetch page 1, then for each page
`2..totalPages` sleep and fetch it. -/
def deptTrace (delayMs : Nat) (firstPageHtml : String) : List FetchEvent :=
  [.sleep delayMs, .fetch 1] ++
    (List.range' 2 (parseTotalPages firstPageHtml - 1)).flatMap
      (fun p => [.sleep delayMs, .fetch p])

theorem filter_isFetch_flatMap (d : Nat) (l : List Nat) :
    ((l.flatMap fun p => [FetchEvent.sleep d, FetchEvent.fetch p]).filter
        FetchEvent.isFetch) = l.map FetchEvent.fetch := by
  induction l with
  | nil => rfl
  | cons a l ih => simp [List.flatMap_cons, List.filter_append, ih, FetchEvent.isFetch]

/--
C4: pagination fetch count.  If the first result page of a department
carries the marker "Page 1 of N" (in either accepted spelling) with
N ≥ 1, the scraper's trace for that department is exactly, for each
page 1..N in order, one politeness sleep followed by the fetch of that
page — so exactly N fetches are issued, the initial one plus N-1
follow-ups, each separated by the configured delay.  When the marker is
absent the page count defaults to 1 and the trace is a single sleep and
the single fetch of page 1.
-/
theorem scraper_pagination_fetch_count (html : String) (d N : Nat) :
    (findPageMarker html = some N → 1 ≤ N →
        deptTrace d html
            = (List.range' 1 N).flatMap (fun p => [FetchEvent.sleep d, FetchEvent.fetch p])
          ∧ ((deptTrace d html).filter FetchEvent.isFetch).length = N) ∧
    (findPageMarker html = none →
        deptTrace d html = [FetchEvent.sleep d, FetchEvent.fetch 1]) := by
  constructor
  · intro hm hN
    have htot : parseTotalPages html = N := by
      unfold parseTotalPages
      rw [hm]
      exact Nat.max_eq_right hN
    have hrange : List.range' 1 N = 1 :: List.range' 2 (N - 1) := by
      cases N with
      | zero => omega
      | succ m => simp [List.range'_succ]
    have htrace : deptTrace d html
        = (List.range' 1 N).flatMap (fun p => [FetchEvent.sleep d, FetchEvent.fetch p]) := by
      rw [hrange, List.flatMap_cons]
      unfold deptTrace
      rw [htot]
    refine ⟨htrace, ?_⟩
    rw [htrace, filter_isFetch_flatMap, List.length_map, List.length_range']
  · intro hm
    unfold deptTrace parseTotalPages
    rw [hm]
    simp

/-- Witness for C4: "Page 1 of 5" yields exactly 5 fetches (pages 1-5),
each preceded by the politeness sleep; a page without the marker yields
the single initial fetch. -/
theorem scraper_pagination_fetch_count_witness :
    findPageMarker "Page 1 of 5" = some 5 ∧
    deptTrace 1500 "Page 1 of 5"
      = (List.range' 1 5).flatMap (fun p => [FetchEvent.sleep 1500, FetchEvent.fetch p]) ∧
    ((deptTrace 1500 "Page 1 of 5").filter FetchEvent.isFetch).length = 5 ∧
    findPageMarker "salary table without marker" = none ∧
    deptTrace 1500 "salary table without marker"
      = [FetchEvent.sleep 1500, FetchEvent.fetch 1] := by
  have h1 : findPageMarker "Page 1 of 5" = some 5 := by decide
  have h2 : findPageMarker "salary table without marker" = none := by decide
  have t1 := (scraper_pagination_fetch_count "Page 1 of 5" 1500 5).1 h1 (by decide)
  have t2 := (scraper_pagination_fetch_count "salary table without marker" 1500 0).2 h2
  exact ⟨h1, t1.1, t1.2, h2, t2⟩

/-! ### Run Controller and failure ledger (part_006, umsalary importer) -/

/-- A roster entry (`parseDepartmentList` output): display name and the
URL-encoded identifier used to address the source. -/
structure Dept where
  name : String
  encodedName : String
deriving DecidableEq

/-- One line of `import-failures.log` (`appendFailure`, part_006 lines
129-136), structurally. -/
structure LedgerEntry where
  yearKey : Int
  encodedName : String
  name : String
  errorMessage : String
deriving DecidableEq

/-- Outcome of one department's `fetch+parse+load` body (part_006 lines
337-370): success with insert counters, a fetch failure, or a failure
of a batch `INSERT` (a LoadError).  Both failures are thrown inside the
per-department `try`. -/
inductive StepOutcome where
  | ok (inserted skipped : Nat)
  | fetchError (msg : String)
  | loadError (msg : String)
deriving DecidableEq

/-- Whether the department's body completed without error. -/
def StepOutcome.isOk : StepOutcome → Bool
  | .ok _ _ => true
  | _ => false

/-- Error message carried by a failing outcome. -/
def StepOutcome.errMsg : StepOutcome → Option String
  | .ok _ _ => none
  | .fetchError m => some m
  | .loadError m => some m

/-- Observable state of one import run. -/
structure RunState where
  ledger : List LedgerEntry
  processed : List String
  succeeded : List String
  totalInserted : Nat
  totalSkipped : Nat
deriving DecidableEq

/-- `appendFailure` of part_006 (lines 129-136): append one JSON line to
the failure log. -/
def appendFailure (yk : Int) (d : Dept) (msg : String)
    (ledger : List LedgerEntry) : List LedgerEntry :=
  ledger ++ [⟨yk, d.encodedName, d.name, msg⟩]

/-- The department loop of `main` (part_006 lines 334-375): for each
department run the fetch+parse+load body; on success accumulate the
counters and remember the department in `succeededEncoded`; on ANY
caught error — fetch or load alike — append a failure-ledger entry and
continue with the next department. -/
def runDepts (step : Dept → StepOutcome) (yk : Int) :
    List Dept → RunState → RunState
  | [], st => st
  | d :: ds, st =>
      match step d with
      | .ok i k =>
          runDepts step yk ds
            { st with
              processed := st.processed ++ [d.encodedName]
              succeeded := st.succeeded ++ [d.encodedName]
              totalInserted := st.totalInserted + i
              totalSkipped := st.totalSkipped + k }
      | .fetchError m =>
          runDepts step yk ds
            { st with
              processed := st.processed ++ [d.encodedName]
              ledger := appendFailure yk d m st.ledger }
      | .loadError m =>
          runDepts step yk ds
            { st with
              processed := st.processed ++ [d.encodedName]
              ledger := appendFailure yk d m st.ledger }

/-- `readFailedEncodedNames` of part_006 (lines 138-150): the encoded
names of ledger entries whose `yearKey` equals the run's. -/
def readFailedEncodedNames (ledger : List LedgerEntry) (yk : Int) : List String :=
  (ledger.filter (fun e => decide (e.yearKey = yk))).map (·.encodedName)

/-- Retry-mode working set (`main`, part_006 lines 301-308): the roster
departments whose encoded name is in the failed set for this year. -/
def workingSet (departments : List Dept) (ledger : List LedgerEntry)
    (yk : Int) : List Dept :=
  departments.filter
    (fun d => (readFailedEncodedNames ledger yk).contains d.encodedName)

/-- `removeFailedFromLog` of part_006 (lines 152-167): drop every line
whose `yearKey` equals the run's and whose encoded name is among the
departments that succeeded; keep everything else.  A no-op when no
department succeeded. -/
def removeFailedFromLog (yk : Int) (names : List String)
    (ledger : List LedgerEntry) : List LedgerEntry :=
  if names.isEmpty then ledger
  else
    ledger.filter (fun e =>
      if e.yearKey = yk then !(names.contains e.encodedName) else true)

/-- A retry-mode run end to end (`main`, part_006): filter the roster to
the failed set for `yk`, run the department loop, and at run end remove
the succeeded departments' entries from the ledger (lines 377-380). -/
def runRetry (step : Dept → StepOutcome) (yk : Int)
    (departments : List Dept) (ledger0 : List LedgerEntry) : List LedgerEntry :=
  let ws := workingSet departments ledger0 yk
  let st := runDepts step yk ws ⟨ledger0, [], [], 0, 0⟩
  if st.succeeded.isEmpty then st.ledger
  else removeFailedFromLog yk st.succeeded st.ledger

theorem runDepts_processed (step : Dept → StepOutcome) (yk : Int) :
    ∀ (ds : List Dept) (st : RunState),
      (runDepts step yk ds st).processed = st.processed ++ ds.map (·.encodedName) := by
  intro ds
  induction ds with
  | nil => intro st; simp [runDepts]
  | cons d ds ih =>
      intro st
      cases hsd : step d <;> simp [runDepts, hsd, ih]

theorem runDepts_ledger (step : Dept → StepOutcome) (yk : Int) :
    ∀ (ds : List Dept) (st : RunState),
      (runDepts step yk ds st).ledger
        = st.ledger ++ ds.filterMap (fun d =>
            ((step d).errMsg).map
              (fun m => (⟨yk, d.encodedName, d.name, m⟩ : LedgerEntry))) := by
  intro ds
  induction ds with
  | nil => intro st; simp [runDepts]
  | cons d ds ih =>
      intro st
      cases hsd : step d <;>
        simp [runDepts, hsd, ih, appendFailure, StepOutcome.errMsg, List.filterMap_cons]

theorem runDepts_succeeded (step : Dept → StepOutcome) (yk : Int) :
    ∀ (ds : List Dept) (st : RunState),
      (runDepts step yk ds st).succeeded
        = st.succeeded ++ (ds.filter (fun d => (step d).isOk)).map (·.encodedName) := by
  intro ds
  induction ds with
  | nil => intro st; simp [runDepts]
  | cons d ds ih =>
      intro st
      cases hsd : step d <;>
        simp [runDepts, hsd, ih, StepOutcome.isOk, List.filter_cons]

/-- Department whose load step fails, used in the C3 counterexample and
witness. -/
def c3Step : Dept → StepOutcome := fun d =>
  if d.encodedName = "HISTORY" then StepOutcome.loadError "insert failed: connection lost"
  else StepOutcome.ok 3 0

/-- Two-department roster for the C3 counterexample and witness. -/
def c3Depts : List Dept := [⟨"History", "HISTORY"⟩, ⟨"Physics", "PHYSICS"⟩]

/--
Counterexample to C3 as stated: a failure while writing a batch to the
canonical store (a LoadError) does NOT abort the run.  In a run over
two departments where the first department's load step fails with a
LoadError, the second department is still processed — the per-unit
`try/catch` of `main` (part_006 lines 337-374) wraps the batch-insert
loop, so the error is recorded in the failure ledger and the loop
continues.
-/
theorem load_error_aborts_run_cex :
    c3Step ⟨"History", "HISTORY"⟩ = StepOutcome.loadError "insert failed: connection lost" ∧
    (runDepts c3Step 0 c3Depts ⟨[], [], [], 0, 0⟩).processed = ["HISTORY", "PHYSICS"] ∧
    "PHYSICS" ∈ (runDepts c3Step 0 c3Depts ⟨[], [], [], 0, 0⟩).processed := by
  exact ⟨by decide, by decide, by decide⟩

/--
C3 amended: a LoadError while writing a department's batch to the
canonical store is handled exactly like a per-unit soft failure — a
failure-ledger entry for that department is appended and the run
continues: every department of the working set, including those after
the failing one, is still processed.
-/
theorem load_error_is_soft_failure (step : Dept → StepOutcome) (yk : Int)
    (depts : List Dept) (st : RunState) :
    (runDepts step yk depts st).processed = st.processed ++ depts.map (·.encodedName) ∧
    (∀ d m, d ∈ depts → step d = StepOutcome.loadError m →
      (⟨yk, d.encodedName, d.name, m⟩ : LedgerEntry) ∈ (runDepts step yk depts st).ledger) := by
  refine ⟨runDepts_processed step yk depts st, ?_⟩
  intro d m hd hstep
  rw [runDepts_ledger step yk depts st]
  refine List.mem_append_right _ ?_
  refine List.mem_filterMap.mpr ⟨d, hd, ?_⟩
  rw [hstep]
  rfl

/-- Witness for the amended C3 at the concrete two-department run: the
failing department's ledger entry is present and both departments are
processed. -/
theorem load_error_is_soft_failure_witness :
    (runDepts c3Step 0 c3Depts ⟨[], [], [], 0, 0⟩).processed = ["HISTORY", "PHYSICS"] ∧
    (⟨0, "HISTORY", "History", "insert failed: connection lost"⟩ : LedgerEntry)
      ∈ (runDepts c3Step 0 c3Depts ⟨[], [], [], 0, 0⟩).ledger := by
  have h := load_error_is_soft_failure c3Step 0 c3Depts ⟨[], [], [], 0, 0⟩
  refine ⟨?_, h.2 ⟨"History", "HISTORY"⟩ "insert failed: connection lost" (by decide) (by decide)⟩
  rw [h.1]
  rfl

/--
C5: retry-mode ledger scoping.  A department is in the retry working
set exactly when it is on the roster and some failure-ledger entry with
the run's requested yearKey carries its encoded name; ledger entries
with any other yearKey contribute nothing to the working set.
-/
theorem retry_working_set_scoping (departments : List Dept)
    (ledger : List LedgerEntry) (yk : Int) (d : Dept) :
    d ∈ workingSet departments ledger yk ↔
      d ∈ departments ∧
        ∃ e ∈ ledger, e.yearKey = yk ∧ e.encodedName = d.encodedName := by
  unfold workingSet readFailedEncodedNames
  simp only [List.mem_filter, List.mem_map, List.contains, List.elem_iff,
    decide_eq_true_eq]
  constructor
  · rintro ⟨hd, e, ⟨⟨he, hy⟩, henc⟩⟩
    exact ⟨hd, e, he, hy, henc⟩
  · rintro ⟨hd, e, he, hy, henc⟩
    exact ⟨hd, e, ⟨⟨he, hy⟩, henc⟩⟩

theorem mem_removeFailedFromLog (yk : Int) (names : List String)
    (ledger : List LedgerEntry) (e : LedgerEntry) (he : e ∈ ledger) :
    e ∈ removeFailedFromLog yk names ledger ↔
      ¬(e.yearKey = yk ∧ e.encodedName ∈ names) := by
  unfold removeFailedFromLog
  split
  · rename_i h
    have hn : names = [] := List.isEmpty_iff.mp h
    subst hn
    simp [he]
  · simp only [List.mem_filter, he, true_and]
    split
    · rename_i hyk
      simp [List.contains, List.elem_iff, hyk]
    · rename_i hyk
      simp [hyk]

/--
C6: retry success removes exactly the succeeded entries.  Take any
retry run scoped to `yk` and any entry `e` of the ledger the run
started from.  After the run, `e` is gone from the ledger exactly when
`e.yearKey` is the run's `yk` and a department of the retry working set
carrying `e`'s encoded name completed its fetch+parse+load without
error; every entry with a different yearKey, and every entry whose
department did not succeed in this run, is still in the ledger.
-/
theorem retry_success_removes_entry (step : Dept → StepOutcome) (yk : Int)
    (departments : List Dept) (ledger0 : List LedgerEntry) (e : LedgerEntry)
    (he : e ∈ ledger0) :
    e ∈ runRetry step yk departments ledger0 ↔
      ¬(e.yearKey = yk ∧ ∃ d ∈ workingSet departments ledger0 yk,
          d.encodedName = e.encodedName ∧ (step d).isOk = true) := by
  have hledmem : e ∈ (runDepts step yk (workingSet departments ledger0 yk)
      ⟨ledger0, [], [], 0, 0⟩).ledger := by
    rw [runDepts_ledger]
    exact List.mem_append_left _ he
  have hsucc : (runDepts step yk (workingSet departments ledger0 yk)
        ⟨ledger0, [], [], 0, 0⟩).succeeded
      = ((workingSet departments ledger0 yk).filter
          (fun d => (step d).isOk)).map (·.encodedName) := by
    rw [runDepts_succeeded]
    rfl
  have hmem_succ : ∀ s : String,
      s ∈ (runDepts step yk (workingSet departments ledger0 yk)
        ⟨ledger0, [], [], 0, 0⟩).succeeded ↔
      ∃ d ∈ workingSet departments ledger0 yk,
        d.encodedName = s ∧ (step d).isOk = true := by
    intro s
    rw [hsucc]
    simp only [List.mem_map, List.mem_filter]
    constructor
    · rintro ⟨d, ⟨h1, h2⟩, h3⟩
      exact ⟨d, h1, h3, h2⟩
    · rintro ⟨d, h1, h3, h2⟩
      exact ⟨d, ⟨h1, h2⟩, h3⟩
  by_cases hemp : (runDepts step yk (workingSet departments ledger0 yk)
      ⟨ledger0, [], [], 0, 0⟩).succeeded.isEmpty
  · have hnil := List.isEmpty_iff.mp hemp
    simp only [runRetry]
    rw [if_pos hemp]
    constructor
    · rintro - ⟨hyk, d, hd, henc, hok⟩
      have hmem : d.encodedName ∈ (runDepts step yk
          (workingSet departments ledger0 yk) ⟨ledger0, [], [], 0, 0⟩).succeeded :=
        (hmem_succ d.encodedName).mpr ⟨d, hd, rfl, hok⟩
      rw [hnil] at hmem
      exact absurd hmem (List.not_mem_nil _)
    · intro _
      exact hledmem
  · simp only [runRetry]
    rw [if_neg hemp]
    rw [mem_removeFailedFromLog yk _ _ e hledmem]
    exact not_congr (and_congr_right fun _ => hmem_succ e.encodedName)

/-- Ledger for the C6 witness: the same department failed for yearKey 2
and for yearKey 0. -/
def c6Ledger : List LedgerEntry :=
  [⟨2, "HISTORY", "History", "HTTP 500"⟩, ⟨0, "HISTORY", "History", "HTTP 500"⟩]

/-- Roster for the C6 witness. -/
def c6Depts : List Dept := [⟨"History", "HISTORY"⟩]

/-- Every department succeeds in the C6 witness retry run. -/
def c6Step : Dept → StepOutcome := fun _ => StepOutcome.ok 5 0

/-- Witness for C6: in a retry run scoped to yearKey 2 in which HISTORY
succeeds, the (2, HISTORY) entry is removed while the (0, HISTORY)
entry of another yearKey survives. -/
theorem retry_success_removes_entry_witness :
    (⟨2, "HISTORY", "History", "HTTP 500"⟩ : LedgerEntry) ∈ c6Ledger ∧
    ((⟨2, "HISTORY", "History", "HTTP 500"⟩ : LedgerEntry)
        ∈ runRetry c6Step 2 c6Depts c6Ledger ↔
      ¬((2 : Int) = 2 ∧ ∃ d ∈ workingSet c6Depts c6Ledger 2,
          d.encodedName = "HISTORY" ∧ (c6Step d).isOk = true)) ∧
    runRetry c6Step 2 c6Depts c6Ledger = [⟨0, "HISTORY", "History", "HTTP 500"⟩] := by
  refine ⟨by decide, ?_, by decide⟩
  exact retry_success_removes_entry c6Step 2 c6Depts c6Ledger
    ⟨2, "HISTORY", "History", "HTTP 500"⟩ (by decide)

/-! ### PDF Field Normalizer (`normalizeTitleAndDepartment`,
`import-from-pdf.js`) -/

/-- `DEPT_START_PATTERNS` of `import-from-pdf.js` (line 105): each regex
`/\s+W\s+/i` (or `/\s+School\s+of\s+/i`) is recorded as its word list;
the surrounding `\s+` separators are part of the matcher below. -/
def DEPT_START_PATTERNS : List (List String) :=
  [["MM"], ["LSA"], ["DENT"], ["Ross"], ["College"], ["School", "of"],
   ["Building"], ["OUA"], ["UMH"], ["DPSS"], ["SRC"], ["CoE"], ["Dbn"]]

/-- Words of one pattern, each followed by `\s+`, case-insensitively. -/
def wordsWs : List String → List Char → Bool
  | [], _ => true
  | w :: rest, cs =>
      match eatCI w.data cs with
      | none => false
      | some r1 =>
          match eatWs1 r1 with
          | none => false
          | some r2 => wordsWs rest r2

/-- One department-start pattern `/\s+w1\s+...\s+wn\s+/i` at one
position. -/
def matchDeptPatAt (ws : List String) (cs : List Char) : Bool :=
  match eatWs1 cs with
  | none => false
  | some r => wordsWs ws r

/-- Index of the leftmost match of one pattern (JS `match.index`). -/
def findMatchIdxAux (pat : List String) (i : Nat) : List Char → Option Nat
  | [] => none
  | c :: cs =>
      if matchDeptPatAt pat (c :: cs) then some i
      else findMatchIdxAux pat (i + 1) cs

/-- Leftmost match index of a department-start pattern in a string. -/
def findMatchIdx (pat : List String) (cs : List Char) : Option Nat :=
  findMatchIdxAux pat 0 cs

/-- `t.slice(0, idx).replace(/\s*[-–]\s*$/, '')` — strip one trailing
dash or en-dash together with the whitespace around it. -/
def stripDashEnd (cs : List Char) : List Char :=
  match (cs.reverse).dropWhile isSpaceChar with
  | c :: rest =>
      if c = '-' ∨ c = '–' then (rest.dropWhile isSpaceChar).reverse else cs
  | [] => cs

/-- JS `x || 'N/A'` on a string. -/
def orNA (s : String) : String := if s = "" then "N/A" else s

/-- The pattern loop of `normalizeTitleAndDepartment`
(`import-from-pdf.js` lines 115-127): the first pattern, in list order,
whose leftmost match yields a dash-stripped, trimmed prefix and a
trimmed suffix both of length at least 2, produces the `(before, after)`
split of the title; patterns that match but fail the length test are
passed over.  The loop's control flow does not depend on the department
value, so it is factored out of the department update. -/
def findTitleSplit : List (List String) → String → Option (String × String)
  | [], _ => none
  | p :: ps, t =>
      match findMatchIdx p t.data with
      | none => findTitleSplit ps t
      | some idx =>
          if 2 ≤ (⟨trimChars (stripDashEnd (t.data.take idx))⟩ : String).length ∧
             2 ≤ (⟨trimChars (t.data.drop idx)⟩ : String).length then
            some (⟨trimChars (stripDashEnd (t.data.take idx))⟩,
                  ⟨trimChars (t.data.drop idx)⟩)
          else findTitleSplit ps t

/-- `normalizeTitleAndDepartment` of `import-from-pdf.js` (lines
111-129): trim both fields; an empty title short-circuits; otherwise
split the title at the first department-start pattern (when the split
passes the length test), keeping an already-populated department
(non-empty and not "N/A") in place of the suffix; empty results become
"N/A". -/
def normalizeTitleAndDepartment (title department : String) : String × String :=
  if strTrim title = "" then (orNA (strTrim title), orNA (strTrim department))
  else
    match findTitleSplit DEPT_START_PATTERNS (strTrim title) with
    | none => (orNA (strTrim title), orNA (strTrim department))
    | some (before, after) =>
        (orNA before,
         orNA (if strTrim department ≠ "" ∧ strTrim department ≠ "N/A"
               then strTrim department else after))

/--
Counterexample to C7 as stated: when the department field is already
populated, the parsed (title, department) pair is NOT left as it was.
For title "PROFESSOR MM Cardiology" with department "History" (already
populated), the code still truncates the title to "PROFESSOR" — only
the department assignment is suppressed (`import-from-pdf.js` lines
118-124: `t = before` runs unconditionally, the `(d && d !== 'N/A')`
guard protects only the department).
-/
theorem pdf_title_split_populated_cex :
    normalizeTitleAndDepartment "PROFESSOR MM Cardiology" "History"
        = ("PROFESSOR", "History") ∧
    normalizeTitleAndDepartment "PROFESSOR MM Cardiology" "History"
        ≠ ("PROFESSOR MM Cardiology", "History") := by
  exact ⟨by decide, by decide⟩

theorem findTitleSplit_lengths (b a : String) :
    ∀ (pats : List (List String)) (t : String),
      findTitleSplit pats t = some (b, a) → 2 ≤ b.length ∧ 2 ≤ a.length := by
  intro pats
  induction pats with
  | nil => intro t h; exact absurd h (by simp [findTitleSplit])
  | cons p ps ih =>
      intro t h
      unfold findTitleSplit at h
      cases hidx : findMatchIdx p t.data with
      | none =>
          simp only [hidx] at h
          exact ih t h
      | some idx =>
          simp only [hidx] at h
          by_cases hlen :
              2 ≤ (⟨trimChars (stripDashEnd (t.data.take idx))⟩ : String).length ∧
              2 ≤ (⟨trimChars (t.data.drop idx)⟩ : String).length
          · rw [if_pos hlen, Option.some.injEq, Prod.mk.injEq] at h
            obtain ⟨hb, ha⟩ := h
            rw [← hb, ← ha]
            exact hlen
          · rw [if_neg hlen] at h
            exact ih t h

/--
C7 amended: during PDF parsing, a freshly parsed title containing a
known organizational-unit-name token mid-string (with at least 2
characters on each side of the split) is split at that token: the text
before it becomes the title in every case, while the text from the
token onward becomes the department only if the department field is not
already populated (empty or "N/A"); an already-populated department
keeps its existing value, but the title is still truncated to the text
before the token.
-/
theorem pdf_title_split_amended (title department b a : String)
    (ht : strTrim title ≠ "")
    (h : findTitleSplit DEPT_START_PATTERNS (strTrim title) = some (b, a)) :
    2 ≤ b.length ∧ 2 ≤ a.length ∧
    normalizeTitleAndDepartment title department
      = (b, if strTrim department ≠ "" ∧ strTrim department ≠ "N/A"
            then strTrim department else a) := by
  obtain ⟨hb, ha⟩ := findTitleSplit_lengths b a DEPT_START_PATTERNS (strTrim title) h
  have hbne : b ≠ "" := by
    intro h0
    rw [h0] at hb
    exact absurd hb (by decide)
  have hane : a ≠ "" := by
    intro h0
    rw [h0] at ha
    exact absurd ha (by decide)
  have horb : orNA b = b := by unfold orNA; exact if_neg hbne
  have hora : orNA a = a := by unfold orNA; exact if_neg hane
  refine ⟨hb, ha, ?_⟩
  unfold normalizeTitleAndDepartment
  rw [if_neg ht]
  simp only [h]
  rw [horb]
  by_cases hd : strTrim department ≠ "" ∧ strTrim department ≠ "N/A"
  · rw [if_pos hd]
    have hord : orNA (strTrim department) = strTrim department := by
      unfold orNA; exact if_neg hd.1
    rw [hord]
  · rw [if_neg hd, hora]

/-- Witness for the amended C7 at the concrete input of the
counterexample: the populated department "History" survives while the
title is split at " MM ". -/
theorem pdf_title_split_amended_witness :
    (strTrim "PROFESSOR MM Cardiology" ≠ "") ∧
    findTitleSplit DEPT_START_PATTERNS (strTrim "PROFESSOR MM Cardiology")
      = some ("PROFESSOR", "MM Cardiology") ∧
    (2 ≤ ("PROFESSOR" : String).length ∧ 2 ≤ ("MM Cardiology" : String).length ∧
     normalizeTitleAndDepartment "PROFESSOR MM Cardiology" "History"
       = ("PROFESSOR",
          if strTrim "History" ≠ "" ∧ strTrim "History" ≠ "N/A"
          then strTrim "History" else "MM Cardiology")) := by
  refine ⟨by decide, by decide, ?_⟩
  exact pdf_title_split_amended "PROFESSOR MM Cardiology" "History"
    "PROFESSOR" "MM Cardiology" (by decide) (by decide)

/-! ### PDF compact parser (`parseRecordChunk`, `import-from-pdf.js`) -/

/-- Characters of the `[\d,]` class of `TAIL_RE`. -/
def isAmountChar (c : Char) : Bool := c.isDigit || c = ','

/-- `[\d,]+\.\d\x7b2\x7d` : a maximal digit-or-comma run, a point, then
exactly two digits (the run is maximal because a shorter run would have
to be followed by a digit or comma where the pattern requires the
point). -/
def eatAmount (cs : List Char) : Option (List Char × List Char) :=
  if (cs.takeWhile isAmountChar).isEmpty then none
  else
    match cs.dropWhile isAmountChar with
    | '.' :: d1 :: d2 :: r =>
        if d1.isDigit && d2.isDigit then
          some (cs.takeWhile isAmountChar ++ '.' :: [d1, d2], r)
        else none
    | _ => none

/-- `(8|9|12)` with the source's alternation order. -/
def eatBasis (cs : List Char) : Option (List Char × List Char) :=
  match cs with
  | '8' :: r => some (['8'], r)
  | '9' :: r => some (['9'], r)
  | '1' :: '2' :: r => some (['1', '2'], r)
  | _ => none

/-- `\d\.\d\x7b2\x7d` : the FTE fraction group. -/
def eatFraction (cs : List Char) : Option (List Char × List Char) :=
  match cs with
  | d :: '.' :: d1 :: d2 :: r =>
      if d.isDigit && d1.isDigit && d2.isDigit then
        some ([d, '.', d1, d2], r)
      else none
  | _ => none

/-- Captured groups of `TAIL_RE` (`import-from-pdf.js` line 100). -/
structure TailGroups where
  amount1 : String
  basis : String
  fraction : String
  amount2 : String
deriving DecidableEq

/-- `TAIL_RE` at one position, anchored to the end of the string:
`([\d,]+\.\d\x7b2\x7d)\s*(8|9|12)-Month\s*(\d\.\d\x7b2\x7d)\s*([\d,]+\.\d\x7b2\x7d)\s*$`
(the `-Month` literal is case-sensitive). -/
def matchTailAt (cs : List Char) : Option TailGroups :=
  match eatAmount cs with
  | none => none
  | some (a1, r1) =>
      match eatBasis (r1.dropWhile isSpaceChar) with
      | none => none
      | some (b, r2) =>
          match eatLit "-Month".data r2 with
          | none => none
          | some r3 =>
              match eatFraction (r3.dropWhile isSpaceChar) with
              | none => none
              | some (f, r4) =>
                  match eatAmount (r4.dropWhile isSpaceChar) with
                  | none => none
                  | some (a2, r5) =>
                      if (r5.dropWhile isSpaceChar).isEmpty then
                        some ⟨⟨a1⟩, ⟨b⟩, ⟨f⟩, ⟨a2⟩⟩
                      else none

/-- Leftmost `TAIL_RE` match; also returns the text before the match,
which is what `rest.replace(TAIL_RE, '')` leaves (the match always
extends to the end of the string). -/
def tailScanAux (acc : List Char) : List Char → Option (TailGroups × List Char)
  | [] => none
  | c :: cs =>
      match matchTailAt (c :: cs) with
      | some g => some (g, acc.reverse)
      | none => tailScanAux (c :: acc) cs

/-- `rest.match(TAIL_RE)` together with
`rest.replace(TAIL_RE, '').trim()` (`parseRecordChunk`, lines
137-145). -/
def tailSplit (rest : String) : Option (TailGroups × String) :=
  match tailScanAux [] rest.data with
  | some (g, pre) => some (g, ⟨trimChars pre⟩)
  | none => none

/-- Leftmost case-sensitive `indexOf` of a pattern. -/
def indexOfFrom (pat : List Char) (i : Nat) : List Char → Option Nat
  | [] => none
  | c :: cs =>
      if (eatLit pat (c :: cs)).isSome then some i
      else indexOfFrom pat (i + 1) cs

/-- `s.indexOf(pat)` for a non-empty pattern. -/
def strIndexOf (s pat : String) : Option Nat := indexOfFrom pat.data 0 s.data

/-- `DEPT_PREFIXES` of `import-from-pdf.js` (line 102), in source order
(including the duplicated entries). -/
def DEPT_MARK_STRS : List String :=
  [" MM ", " LSA ", " DENT ", " Ross ", " College ", " School of ",
   " Building ", " MM ", " LSA ", " DENT ", " Ross "]

/-- The department-marker loop of `parseRecordChunk` (lines 154-163):
the first list entry found anywhere in `afterName` splits it; text
before the marker (trimmed) and the trimmed marker glued to the text
after it become `(beforeDept, department)`; if no marker occurs the
whole string is `beforeDept` and the department defaults to "N/A". -/
def deptMarkSplit : List String → String → String × String
  | [], afterName => (afterName, "N/A")
  | m :: ms, afterName =>
      match strIndexOf afterName m with
      | some i =>
          (⟨trimChars (afterName.data.take i)⟩,
           ⟨trimChars ((strTrim m).data ++ afterName.data.drop (i + m.length))⟩)
      | none => deptMarkSplit ms afterName

/-- Whitespace tokenization (`beforeDept.split(/\s+/)` on the trimmed
string `beforeDept`); an empty string yields `[""]` as in JS. -/
def tokenizeWsAux : Nat → List Char → List (List Char)
  | 0, _ => []
  | _ + 1, [] => []
  | fuel + 1, c :: cs =>
      if isSpaceChar c then tokenizeWsAux fuel cs
      else (c :: cs.takeWhile (fun x => !isSpaceChar x))
             :: tokenizeWsAux fuel (cs.dropWhile (fun x => !isSpaceChar x))

/-- `split(/\s+/)` for the trimmed strings the parser feeds it. -/
def splitWsTrimmed (s : String) : List String :=
  if s.data.isEmpty then [""]
  else (tokenizeWsAux s.data.length s.data).map (fun l => (⟨l⟩ : String))

/-- One record of a PDF parser before the year fields are attached by
`main` (`records.map((r) => (\x7b ...r, fiscal_year, year_key \x7d))`). -/
structure PdfRecord where
  last_name : String
  first_name : String
  title : String
  department : String
  campus : String
  campus_id : Nat
  ftr : ℚ
  gf : ℚ
  period_fte : String
deriving DecidableEq

/-- `CAMPUS_IDS[campus] ?? 1` (`import-from-pdf.js` line 41). -/
def CAMPUS_IDS (campus : String) : Nat :=
  if campus = "UM_ANN-ARBOR" then 1
  else if campus = "UM_DEARBOR" then 2
  else if campus = "UM_FLINT" then 3
  else 1

/-- `words.length > 1 ? words.slice(1).join(' ') : 'N/A'` (line 166). -/
def chunkTitle (beforeDept : String) : String :=
  if 1 < (splitWsTrimmed beforeDept).length
  then String.intercalate " " ((splitWsTrimmed beforeDept).drop 1)
  else "N/A"

/-- The record built at the end of `parseRecordChunk` (lines 164-182)
from the tail groups, the name parts and the department split. -/
def buildChunkRecord (campus : String) (g : TailGroups)
    (ln beforeDept department : String) : PdfRecord :=
  { last_name := ln
    first_name := orNA ((splitWsTrimmed beforeDept).getD 0 "")
    title := (normalizeTitleAndDepartment (chunkTitle beforeDept) department).1
    department := (normalizeTitleAndDepartment (chunkTitle beforeDept) department).2
    campus := campus
    campus_id := CAMPUS_IDS campus
    ftr := parseCurrency g.amount1
    gf := parseCurrency g.amount2
    period_fte := g.basis ++ "Month" ++ g.fraction }

/-- Name validation of `parseRecordChunk` (lines 150-152): empty last
name or empty after-comma text discards the chunk. -/
def parseChunkNames (campus : String) (g : TailGroups)
    (ln afterName : String) : Option PdfRecord :=
  if ln = "" ∨ afterName = "" then none
  else
    some (buildChunkRecord campus g ln
      (deptMarkSplit DEPT_MARK_STRS afterName).1
      (deptMarkSplit DEPT_MARK_STRS afterName).2)

/-- The part of `parseRecordChunk` after the tail match (lines 145-152):
reject an empty middle, split it at the first comma into last name and
the rest. -/
def parseChunkMiddle (campus : String) (g : TailGroups)
    (middle : String) : Option PdfRecord :=
  if middle = "" then none
  else
    match strIndexOf middle "," with
    | none => none
    | some commaIdx =>
        parseChunkNames campus g
          ⟨trimChars (middle.data.take commaIdx)⟩
          ⟨trimChars (middle.data.drop (commaIdx + 1))⟩

/-- `parseRecordChunk` of `import-from-pdf.js` (lines 136-183). -/
def parseRecordChunk (campus rest : String) : Option PdfRecord :=
  match tailSplit rest with
  | none => none
  | some (g, middle) => parseChunkMiddle campus g middle

theorem parseChunkNames_fields (campus : String) (g : TailGroups)
    (ln an : String) (r : PdfRecord)
    (h : parseChunkNames campus g ln an = some r) :
    r.ftr = parseCurrency g.amount1 ∧
    r.period_fte = g.basis ++ "Month" ++ g.fraction ∧
    r.gf = parseCurrency g.amount2 := by
  unfold parseChunkNames at h
  split at h
  · exact Option.noConfusion h
  · rw [Option.some.injEq] at h
    subst h
    exact ⟨rfl, rfl, rfl⟩

theorem parseChunkMiddle_fields (campus : String) (g : TailGroups)
    (middle : String) (r : PdfRecord)
    (h : parseChunkMiddle campus g middle = some r) :
    r.ftr = parseCurrency g.amount1 ∧
    r.period_fte = g.basis ++ "Month" ++ g.fraction ∧
    r.gf = parseCurrency g.amount2 := by
  unfold parseChunkMiddle at h
  split at h
  · exact Option.noConfusion h
  · split at h
    · exact Option.noConfusion h
    · exact parseChunkNames_fields campus g _ _ r h

/--
C8: compact tail extraction.  For every compact-format chunk whose tail
matches the anchored numeric pattern
`<amount> <8|9|12>-Month <fraction> <amount>`, any record the compact
parser yields for the chunk has `ftr` equal to the parsed first amount,
`period_fte` equal to the basis digits concatenated with "Month" and
the fraction, and `gf` equal to the parsed final amount.
-/
theorem compact_tail_extraction (campus rest : String) (g : TailGroups)
    (middle : String) (htail : tailSplit rest = some (g, middle))
    (r : PdfRecord) (hr : parseRecordChunk campus rest = some r) :
    r.ftr = parseCurrency g.amount1 ∧
    r.period_fte = g.basis ++ "Month" ++ g.fraction ∧
    r.gf = parseCurrency g.amount2 := by
  unfold parseRecordChunk at hr
  rw [htail] at hr
  exact parseChunkMiddle_fields campus g middle r hr

/-- The concrete compact chunk of the C8 witness. -/
def c8Chunk : String := "Smith, John Professor 62,232.00 12-Month1.00 0.00"

/-- The record `parseRecordChunk` yields for `c8Chunk`. -/
def c8Record : PdfRecord :=
  ⟨"Smith", "John", "Professor", "N/A", "UM_ANN-ARBOR", 1,
   parseCurrency "62,232.00", parseCurrency "0.00", "12Month1.00"⟩

/-- Witness for C8: the tail `"62,232.00 12-Month1.00 0.00"` matches and
yields `ftr = 62232.00`, `period_fte = "12Month1.00"`, `gf = 0.00`. -/
theorem compact_tail_extraction_witness :
    tailSplit c8Chunk
      = some (⟨"62,232.00", "12", "1.00", "0.00"⟩, "Smith, John Professor") ∧
    parseRecordChunk "UM_ANN-ARBOR" c8Chunk = some c8Record ∧
    (c8Record.ftr = parseCurrency "62,232.00" ∧
     c8Record.period_fte = "12" ++ "Month" ++ "1.00" ∧
     c8Record.gf = parseCurrency "0.00") ∧
    parseCurrency "62,232.00" = 62232 ∧
    parseCurrency "0.00" = 0 ∧
    c8Record.period_fte = "12Month1.00" := by
  have h1 : tailSplit c8Chunk
      = some (⟨"62,232.00", "12", "1.00", "0.00"⟩, "Smith, John Professor") := by decide
  have h2 : parseRecordChunk "UM_ANN-ARBOR" c8Chunk = some c8Record := by rfl
  have hftr : parseCurrency "62,232.00"
      = ((62232 : ℕ) : ℚ) + ((0 : ℕ) : ℚ) / (10 : ℚ) ^ (2 : ℕ) := rfl
  have hgf : parseCurrency "0.00"
      = ((0 : ℕ) : ℚ) + ((0 : ℕ) : ℚ) / (10 : ℚ) ^ (2 : ℕ) := rfl
  refine ⟨h1, h2,
    compact_tail_extraction "UM_ANN-ARBOR" c8Chunk _ _ h1 c8Record h2,
    ?_, ?_, by decide⟩
  · rw [hftr]; norm_num
  · rw [hgf]; norm_num

/-! ### PDF importer: pre-insert truncation (`truncateRecord`) -/

theorem truncStr_length_le (m : Nat) (s : String) : (truncStr m s).length ≤ m := by
  unfold truncStr
  split
  · rename_i h
    show (s.data.take m).length ≤ m
    rw [List.length_take]
    exact Nat.min_le_left m _
  · rename_i h
    omega

/--
C9: every record the PDF importer submits for insertion has bounded
string fields.  Each element of an insert batch passes through
`truncateRecord`, so `last_name` and `first_name` are at most 255
characters, `title` and `department` at most 500, `period_fte` at most
50 and `campus` at most 100; an over-long parsed field never reaches
the store.
-/
theorem pdf_insert_fields_bounded (batch : List SalaryRecord)
    (r : SalaryRecord) (hr : r ∈ pdfInsertBatch batch) :
    r.last_name.length ≤ 255 ∧ r.first_name.length ≤ 255 ∧
    r.title.length ≤ 500 ∧ r.department.length ≤ 500 ∧
    r.period_fte.length ≤ 50 ∧ r.campus.length ≤ 100 := by
  obtain ⟨s, _, rfl⟩ := List.mem_map.mp hr
  exact ⟨truncStr_length_le 255 s.last_name, truncStr_length_le 255 s.first_name,
    truncStr_length_le 500 s.title, truncStr_length_le 500 s.department,
    truncStr_length_le 50 s.period_fte, truncStr_length_le 100 s.campus⟩

/-- A parsed record with a 300-character last name, longer than the
255-character column bound. -/
def c9Record : SalaryRecord :=
  ⟨⟨List.replicate 300 'a'⟩, "John", "Professor", "LSA History",
   "2024-25", 1, "UM_ANN-ARBOR", 1, 0, 0, "12-Month1.00"⟩

/-- Witness for C9: the 300-character last name is clipped to 255 before
the insert, and every bounded field of the submitted row respects its
bound. -/
theorem pdf_insert_fields_bounded_witness :
    truncateRecord c9Record ∈ pdfInsertBatch [c9Record] ∧
    ((truncateRecord c9Record).last_name.length ≤ 255 ∧
     (truncateRecord c9Record).first_name.length ≤ 255 ∧
     (truncateRecord c9Record).title.length ≤ 500 ∧
     (truncateRecord c9Record).department.length ≤ 500 ∧
     (truncateRecord c9Record).period_fte.length ≤ 50 ∧
     (truncateRecord c9Record).campus.length ≤ 100) ∧
    c9Record.last_name.length = 300 ∧
    (truncateRecord c9Record).last_name.length = 255 := by
  have hm : truncateRecord c9Record ∈ pdfInsertBatch [c9Record] :=
    List.mem_map.mpr ⟨c9Record, List.mem_singleton.mpr rfl, rfl⟩
  exact ⟨hm, pdf_insert_fields_bounded [c9Record] _ hm, by decide, by decide⟩

/-! ### PDF line-block parser (`parseLineByLineRecords`,
`import-from-pdf.js`) -/

/-- One campus token of the splitting regex
`/(UM_ANN-ARBOR|UM_FLINT|UM_DEARBOR)/g`, in alternation order. -/
def tokenAt (cs : List Char) : Option (String × List Char) :=
  match eatLit "UM_ANN-ARBOR".data cs with
  | some r => some ("UM_ANN-ARBOR", r)
  | none =>
      match eatLit "UM_FLINT".data cs with
      | some r => some ("UM_FLINT", r)
      | none =>
          match eatLit "UM_DEARBOR".data cs with
          | some r => some ("UM_DEARBOR", r)
          | none => none

/-- Scan to the leftmost campus token: returns the text before it and,
when found, the token with the remaining text. -/
def scanCampus : List Char → (List Char × Option (String × List Char))
  | [] => ([], none)
  | c :: cs =>
      match tokenAt (c :: cs) with
      | some (tok, rest) => ([], some (tok, rest))
      | none =>
          match scanCampus cs with
          | (pre, r) => (c :: pre, r)

/-- Collect `(campus, block)` pairs as `text.split(re)` with the capture
group produces them (`parseLineByLineRecords`, lines 197-201); the fuel
is the remaining text length, which strictly bounds the recursion. -/
def blocksAux : Nat → String → List Char → List (String × String)
  | 0, tok, cs => [(tok, ⟨cs⟩)]
  | fuel + 1, tok, cs =>
      match scanCampus cs with
      | (pre, none) => [(tok, ⟨pre⟩)]
      | (_, some (tok2, rest)) =>
          (tok, ⟨(scanCampus cs).1⟩) :: blocksAux fuel tok2 rest

/-- Split the document at campus tokens into `(campus, block)` pairs;
text before the first token is discarded (the loop starts at
`parts[1]`). -/
def splitByCampus (s : String) : List (String × String) :=
  match scanCampus s.data with
  | (_, none) => []
  | (_, some (tok, rest)) => blocksAux rest.length tok rest

/-- Split on `\n` (the `/\n/` of `block.split`). -/
def splitOnNl : List Char → List (List Char)
  | [] => [[]]
  | '\n' :: cs => [] :: splitOnNl cs
  | c :: cs =>
      match splitOnNl cs with
      | [] => [[c]]
      | l :: ls => (c :: l) :: ls

/-- `block.trim().split(/\n/).map((l) => l.trim()).filter(Boolean)`
(line 202). -/
def blockLines (block : String) : List String :=
  ((splitOnNl (trimChars block.data)).map
    (fun l => (⟨trimChars l⟩ : String))).filter (fun s => s != "")

/-- JS `x || y` on strings. -/
def jsOr (a b : String) : String := if a = "" then b else a

/-- Full-string `[\d,]+\.?\d*` : a non-empty digit-or-comma run, an
optional point, a digit run, nothing else. -/
def isNumericStr (cs : List Char) : Bool :=
  if (cs.takeWhile isAmountChar).isEmpty then false
  else
    match cs.dropWhile isAmountChar with
    | [] => true
    | '.' :: r2 => (r2.dropWhile Char.isDigit).isEmpty
    | _ => false

/-- `FTR_BASIS_SAME_LINE = /^([\d,]+\.?\d*)\s*(8|9|12)-Month\s*$/i`
(line 186), matched from the end of the line: trailing whitespace, the
case-insensitive `-Month` literal, the basis digits, optional
whitespace, and a fully numeric remainder.  The basis alternatives have
pairwise distinct endings, so this agrees with the regex. -/
def ftrBasisSameLine (line : String) : Option (String × String) :=
  match eatCI "-Month".data.reverse (line.data.reverse.dropWhile isSpaceChar) with
  | none => none
  | some rev2 =>
      match
        (match rev2 with
         | '2' :: '1' :: r => some ("12", r)
         | '8' :: r => some ("8", r)
         | '9' :: r => some ("9", r)
         | _ => none) with
      | none => none
      | some (basis, rev3) =>
          if isNumericStr (rev3.dropWhile isSpaceChar).reverse then
            some (⟨(rev3.dropWhile isSpaceChar).reverse⟩, basis)
          else none

/-- `/^(8|9|12)-Month\s*$/i` on a (trimmed) line, together with
the case-insensitive removal of the `-Month` suffix plus trailing
whitespace, trimmed (lines 226-228): yields the basis
digits. -/
def basisOnlyLine (line : String) : Option String :=
  match eatBasis line.data with
  | some (b, r) =>
      match eatCI "-Month".data r with
      | some r2 =>
          if (r2.dropWhile isSpaceChar).isEmpty then some ⟨b⟩ else none
      | none => none
  | none => none

/-- The record pushed by `parseLineByLineRecords` (lines 237-247). -/
def buildLineRecord (campus ln fn : String) (norm : String × String)
    (ftrStr basisStr fractionStr gfStr : String) : PdfRecord :=
  { last_name := ln
    first_name := fn
    title := norm.1
    department := norm.2
    campus := campus
    campus_id := CAMPUS_IDS campus
    ftr := parseCurrency ftrStr
    gf := parseCurrency gfStr
    period_fte := jsOr basisStr "12" ++ "Month" ++ jsOr fractionStr "1.00" }

/-- The two sub-layouts of one line block (lines 219-233): format A has
FTR and basis on line 3, fraction and GF on lines 4-5; format B (at
least 7 lines) has them on lines 3-6; blocks matching neither are
skipped. -/
def parseBlockRest (campus : String) (lines : List String)
    (commaIdx : Nat) : Option PdfRecord :=
  match ftrBasisSameLine (lines.getD 3 "") with
  | some (ftrStr, basisStr) =>
      some (buildLineRecord campus
        ⟨trimChars ((lines.getD 0 "").data.take commaIdx)⟩
        (jsOr ⟨trimChars ((lines.getD 0 "").data.drop (commaIdx + 1))⟩ "N/A")
        (normalizeTitleAndDepartment (jsOr (lines.getD 1 "") "N/A")
          (jsOr (lines.getD 2 "") "N/A"))
        ftrStr basisStr (lines.getD 4 "") (lines.getD 5 ""))
  | none =>
      if 7 ≤ lines.length then
        match basisOnlyLine (strTrim (lines.getD 4 "")) with
        | some basisStr =>
            some (buildLineRecord campus
              ⟨trimChars ((lines.getD 0 "").data.take commaIdx)⟩
              (jsOr ⟨trimChars ((lines.getD 0 "").data.drop (commaIdx + 1))⟩ "N/A")
              (normalizeTitleAndDepartment (jsOr (lines.getD 1 "") "N/A")
                (jsOr (lines.getD 2 "") "N/A"))
              (lines.getD 3 "") basisStr (lines.getD 5 "") (lines.getD 6 ""))
        | none => none
      else none

/-- One campus block of `parseLineByLineRecords` (lines 199-248): at
least 6 non-empty lines, line 0 must contain a comma. -/
def parseBlock (campus block : String) : Option PdfRecord :=
  if (blockLines block).length < 6 then none
  else
    match strIndexOf ((blockLines block).getD 0 "") "," with
    | none => none
    | some commaIdx => parseBlockRest campus (blockLines block) commaIdx

/-- `parseLineByLineRecords` of `import-from-pdf.js` (lines 195-250). -/
def parseLineByLineRecords (text : String) : List PdfRecord :=
  (splitByCampus text).filterMap (fun cb => parseBlock cb.1 cb.2)

theorem orNA_ne_empty (s : String) : orNA s ≠ "" := by
  unfold orNA
  split
  · decide
  · assumption

theorem normalize_components_ne (t d : String) :
    (normalizeTitleAndDepartment t d).1 ≠ ""
      ∧ (normalizeTitleAndDepartment t d).2 ≠ "" := by
  unfold normalizeTitleAndDepartment
  split
  · exact ⟨orNA_ne_empty _, orNA_ne_empty _⟩
  · split
    · exact ⟨orNA_ne_empty _, orNA_ne_empty _⟩
    · exact ⟨orNA_ne_empty _, orNA_ne_empty _⟩

theorem parseChunkNames_nonempty (campus : String) (g : TailGroups)
    (ln an : String) (r : PdfRecord)
    (h : parseChunkNames campus g ln an = some r) :
    r.title ≠ "" ∧ r.department ≠ "" := by
  unfold parseChunkNames at h
  split at h
  · exact Option.noConfusion h
  · rw [Option.some.injEq] at h
    subst h
    exact normalize_components_ne _ _

theorem parseChunkMiddle_nonempty (campus : String) (g : TailGroups)
    (middle : String) (r : PdfRecord)
    (h : parseChunkMiddle campus g middle = some r) :
    r.title ≠ "" ∧ r.department ≠ "" := by
  unfold parseChunkMiddle at h
  split at h
  · exact Option.noConfusion h
  · split at h
    · exact Option.noConfusion h
    · exact parseChunkNames_nonempty campus g _ _ r h

theorem parseBlockRest_nonempty (campus : String) (lines : List String)
    (commaIdx : Nat) (r : PdfRecord)
    (h : parseBlockRest campus lines commaIdx = some r) :
    r.title ≠ "" ∧ r.department ≠ "" := by
  unfold parseBlockRest at h
  split at h
  · rw [Option.some.injEq] at h
    subst h
    exact normalize_components_ne _ _
  · split at h
    · split at h
      · rw [Option.some.injEq] at h
        subst h
        exact normalize_components_ne _ _
      · exact Option.noConfusion h
    · exact Option.noConfusion h

/--
C10: every record yielded by either PDF parser has a non-empty title
and a non-empty department — a parsed title or department that would be
empty is replaced by "N/A" before the record is emitted (via
`normalizeTitleAndDepartment`'s `|| 'N/A'` results).  The first
conjunct covers the compact-chunk parser, the second the line-block
parser.
-/
theorem pdf_records_nonempty_fields :
    (∀ campus rest r, parseRecordChunk campus rest = some r →
        r.title ≠ "" ∧ r.department ≠ "") ∧
    (∀ text r, r ∈ parseLineByLineRecords text →
        r.title ≠ "" ∧ r.department ≠ "") := by
  constructor
  · intro campus rest r h
    unfold parseRecordChunk at h
    split at h
    · exact Option.noConfusion h
    · exact parseChunkMiddle_nonempty campus _ _ r h
  · intro text r h
    obtain ⟨cb, _, hcb⟩ := List.mem_filterMap.mp h
    unfold parseBlock at hcb
    split at hcb
    · exact Option.noConfusion hcb
    · split at hcb
      · exact Option.noConfusion hcb
      · exact parseBlockRest_nonempty cb.1 _ _ r hcb

/-- Compact chunk for the C10 witness. -/
def c10Chunk : String := "Jones, Mary Lecturer 80,000.00 9-Month0.50 10,000.00"

/-- Record yielded for `c10Chunk`. -/
def c10ChunkRecord : PdfRecord :=
  ⟨"Jones", "Mary", "Lecturer", "N/A", "UM_FLINT", 3,
   parseCurrency "80,000.00", parseCurrency "10,000.00", "9Month0.50"⟩

/-- Line-block document for the C10 witness. -/
def c10Text : String :=
  "UM_FLINT\nDoe, Jane\nLecturer\nCAS Biology\n90,000.00 8-Month\n1.00\n45,000.00"

/-- Record yielded for `c10Text`. -/
def c10LineRecord : PdfRecord :=
  ⟨"Doe", "Jane", "Lecturer", "CAS Biology", "UM_FLINT", 3,
   parseCurrency "90,000.00", parseCurrency "45,000.00", "8Month1.00"⟩

/-- Witness for C10: a concrete compact chunk and a concrete line-block
document, each producing a record whose title and department are
non-empty (with "N/A" substituted for the chunk's absent
department). -/
theorem pdf_records_nonempty_fields_witness :
    parseRecordChunk "UM_FLINT" c10Chunk = some c10ChunkRecord ∧
    (c10ChunkRecord.title ≠ "" ∧ c10ChunkRecord.department ≠ "") ∧
    c10LineRecord ∈ parseLineByLineRecords c10Text ∧
    (c10LineRecord.title ≠ "" ∧ c10LineRecord.department ≠ "") := by
  have h1 : parseRecordChunk "UM_FLINT" c10Chunk = some c10ChunkRecord := by rfl
  have h2 : parseLineByLineRecords c10Text = [c10LineRecord] := by rfl
  have hm : c10LineRecord ∈ parseLineByLineRecords c10Text := by
    rw [h2]
    exact List.mem_singleton.mpr rfl
  exact ⟨h1, pdf_records_nonempty_fields.1 "UM_FLINT" c10Chunk c10ChunkRecord h1,
    hm, pdf_records_nonempty_fields.2 c10Text c10LineRecord hm⟩

